import Mathlib

/-!
Verification of the classification core of
`samples/classification/document-intelligence-embeddings.ipynb`.

The non-trivial logic of the notebook lives in cell 21 (the per-page classify
loop over cosine similarities) and cell 23 (the accuracy evaluation).
Floating-point vectors are modelled as lists of real numbers; the
similarity threshold and all arithmetic are exact.
-/

set_option autoImplicit false
set_option maxHeartbeats 1000000

namespace DocCls

/-- A category definition, as set up in cell 9 and enriched with its
embedding in cell 17: a dict with keys `classification`, `description`,
`keywords`, `embedding`. -/
structure Category where
  classification : String
  description : String
  keywords : List String
  embedding : List ℝ

/-- `modules.classification.Classification`: one per-page classification
record, `Classification(page_number=idx, classification=..., similarity=...)`. -/
structure Classification where
  page_number : ℕ
  classification : String
  similarity : ℝ

/-- Dot product of two vectors, pairwise over the common length. -/
def dotp (a b : List ℝ) : ℝ :=
  (List.zipWith (fun x y => x * y) a b).sum

/-- Euclidean magnitude of a vector. -/
noncomputable def magnitude (a : List ℝ) : ℝ :=
  Real.sqrt (dotp a a)

/-- Modelled from the spec: `sklearn.metrics.pairwise.cosine_similarity`
is an external library call, not code under `src/`.  Per the spec (§4.1
step 2): `sim(a,b) = dot(a,b) / (|a| * |b|)`, defined to be `0` if either
vector has zero magnitude. -/
noncomputable def cosineSim (a b : List ℝ) : ℝ :=
  if magnitude a = 0 ∨ magnitude b = 0 then 0
  else dotp a b / (magnitude a * magnitude b)

/-- Helper for `argmaxIdx`: scan the remaining entries, keeping the value
`best` of the current best entry and its index `bi`; `i` is the index of
the head of the remaining list.  The best entry is replaced only on a
strictly greater value, so the first occurrence of the maximum wins. -/
noncomputable def argmaxGo (best : ℝ) (bi i : ℕ) : List ℝ → ℕ
  | [] => bi
  | x :: xs => if best < x then argmaxGo x i (i + 1) xs else argmaxGo best bi (i + 1) xs

/-- `np.argmax`: index of the first occurrence of the maximum value.
(`np.argmax` raises on an empty array; the classify loop only calls it on
a similarity row of one entry per category, and the category list of the
notebook is non-empty.  The `[]` case is an arbitrary junk value.) -/
noncomputable def argmaxIdx : List ℝ → ℕ
  | [] => 0
  | x :: xs => argmaxGo x 0 1 xs

/-- The similarity row for one page:
`cosine_similarity(page_vector, classification_matrix)[0]`, one entry per
category, in category order. -/
noncomputable def simsOf (cats : List Category) (pe : List ℝ) : List ℝ :=
  cats.map (fun c => cosineSim pe c.embedding)

/-- `best_match_idx = np.argmax(similarities)` (cell 21). -/
noncomputable def bestIdx (cats : List Category) (pe : List ℝ) : ℕ :=
  argmaxIdx (simsOf cats pe)

/-- `best_similarity = similarities[best_match_idx]` (cell 21). -/
noncomputable def bestSim (cats : List Category) (pe : List ℝ) : ℝ :=
  (simsOf cats pe).getD (bestIdx cats pe) 0

/-- Junk category returned by `List.getD` out of range; the classify loop
only indexes `classifications[best_match_idx]` with `best_match_idx` in
range. -/
def junkCategory : Category := ⟨"", "", [], []⟩

/-- The label chosen for a non-empty page embedding (cell 21):
`classifications[best_match_idx]` -> `classification` when
`best_similarity >= similarity_threshold`, else
`"Unclassified (" + name + ")"` via the f-string. -/
noncomputable def pageLabel (cats : List Category) (thr : ℝ) (pe : List ℝ) : String :=
  if bestSim cats pe ≥ thr then ((cats.getD (bestIdx cats pe) junkCategory).classification)
  else "Unclassified (" ++ ((cats.getD (bestIdx cats pe) junkCategory).classification) ++ ")"

/-- The (label, similarity) pair computed for a non-empty page embedding
by the body of the classify loop (cell 21, lines 396-404). -/
noncomputable def classifyPage (cats : List Category) (thr : ℝ) (pe : List ℝ) :
    String × ℝ :=
  (pageLabel cats thr pe, bestSim cats pe)

/-- Error raised when the appended `best_similarity` is read before any
non-empty page bound it. -/
def nameErr : String := "NameError: name best_similarity is not defined"

/-- Modelled from the spec: error raised by the external
`cosine_similarity` call when the page vector and the category matrix
differ in feature count (`DimensionMismatch`, spec §7, fail fast). -/
def dimErr : String := "ValueError: dimension mismatch"

/-- Modelled from the spec: error raised by the external
`cosine_similarity`/`np.argmax` calls on an empty category set
(`EmptyCategorySet`, spec §7). -/
def emptyCatsErr : String := "ValueError: empty category set"

/-- The classify loop of cell 21, one step per page.  `idx` is the
enumeration counter, `best?` the value currently bound to
`best_similarity` (`none` before the first non-empty page binds it).
On an empty page embedding the loop takes the `not page_emb` branch and
appends `Classification(page_number=idx, classification="Unclassified",
similarity=best_similarity)` — the appended similarity is
`best_similarity`, not the locally assigned `similarity = 0.0`, so it is
the stale value from the last non-empty page, and a `NameError` is raised
when no page has bound `best_similarity` yet. -/
noncomputable def classifyGo (cats : List Category) (thr : ℝ) :
    ℕ → Option ℝ → List (List ℝ) → Except String (List Classification)
  | _, _, [] => Except.ok []
  | idx, best?, pe :: rest =>
    match pe with
    | [] =>
      match best? with
      | none => Except.error nameErr
      | some bs =>
        match classifyGo cats thr (idx + 1) (some bs) rest with
        | Except.ok out => Except.ok (⟨idx, "Unclassified", bs⟩ :: out)
        | Except.error e => Except.error e
    | _ :: _ =>
      if cats.isEmpty then Except.error emptyCatsErr
      else if cats.any (fun c => c.embedding.length ≠ pe.length) then Except.error dimErr
      else
        match classifyGo cats thr (idx + 1) (some (bestSim cats pe)) rest with
        | Except.ok out =>
            Except.ok (⟨idx, pageLabel cats thr pe, bestSim cats pe⟩ :: out)
        | Except.error e => Except.error e

/-- The full classify phase of cell 21: iterate the loop over
`page_embeddings` starting with `idx = 0` and `best_similarity` unbound,
producing `document_classifications`. -/
noncomputable def classifyPages (cats : List Category) (thr : ℝ)
    (pages : List (List ℝ)) : Except String (List Classification) :=
  classifyGo cats thr 0 none pages

/-- `similarity_threshold = 0.6` (cell 21). -/
noncomputable def similarity_threshold : ℝ := 0.6

/-- Modelled from the spec: an evaluator record
(`modules.accuracy_evaluator` is imported by the notebook but its source
is not under `src/`).  A record is a field-name/value association list,
as produced by `to_dict()`; field values are compared only for exact
equality, so they are modelled as strings. -/
def EvalRecord : Type := List (String × String)

/-- Look up a field of a record by name (first occurrence). -/
def getField (r : EvalRecord) (k : String) : Option String :=
  (r.find? (fun p => p.1 = k)).map (fun p => p.2)

/-- Modelled from the spec: an actual record corresponds to an expected
record when they agree on every field named in `match_keys` (spec §4.2). -/
def joins (matchKeys : List String) (e a : EvalRecord) : Bool :=
  matchKeys.all (fun k => getField a k = getField e k)

/-- Modelled from the spec: the actual record joined to an expected
record under the match key; `none` when no actual record corresponds
(`NoExpectedRecordMatch`, counted as a mismatch and not raised). -/
def findActual (matchKeys : List String) (actual : List EvalRecord)
    (e : EvalRecord) : Option EvalRecord :=
  actual.find? (joins matchKeys e)

/-- Modelled from the spec: all non-ignored fields of the expected record
must be exactly equal in the joined actual record (spec §4.2). -/
def fieldsMatch (ignoreKeys : List String) (e a : EvalRecord) : Bool :=
  e.all (fun p => p.1 ∈ ignoreKeys || getField a p.1 = some p.2)

/-- Modelled from the spec: an expected record counts as a match when a
joined actual record exists and agrees on all non-ignored fields; an
expected record with no joined actual record contributes 0. -/
def recordMatch (matchKeys ignoreKeys : List String)
    (actual : List EvalRecord) (e : EvalRecord) : Bool :=
  match findActual matchKeys actual e with
  | none => false
  | some a => fieldsMatch ignoreKeys e a

/-- Modelled from the spec: `AccuracyEvaluator(match_keys, ignore_keys)
.evaluate(expected, actual)` -> `overall` — the count of matching expected
records divided by the count of expected records (spec §4.2). -/
def evaluate (matchKeys ignoreKeys : List String)
    (expected actual : List EvalRecord) : ℚ :=
  ((expected.countP (fun e => recordMatch matchKeys ignoreKeys actual e) : ℚ)) /
    (expected.length : ℚ)

/-- A concrete one-dimensional category used to exercise the classifier
on closed inputs. -/
def catA : Category := ⟨"A", "", [], [1]⟩

/-- A concrete singleton category list. -/
def catsA : List Category := [catA]

/-! ### Helper lemmas -/

lemma dotp_one_one : dotp [(1 : ℝ)] [(1 : ℝ)] = 1 := by
  norm_num [dotp]

lemma magnitude_one : magnitude [(1 : ℝ)] = 1 := by
  rw [magnitude, dotp_one_one, Real.sqrt_one]

lemma cosineSim_one_one : cosineSim [(1 : ℝ)] [(1 : ℝ)] = 1 := by
  rw [cosineSim, if_neg, dotp_one_one, magnitude_one]
  · norm_num
  · rw [magnitude_one]
    norm_num

lemma simsOf_catsA : simsOf catsA [(1 : ℝ)] = [1] := by
  simp [simsOf, catsA, catA, cosineSim_one_one]

lemma bestIdx_catsA : bestIdx catsA [(1 : ℝ)] = 0 := by
  rw [bestIdx, simsOf_catsA]
  simp [argmaxIdx, argmaxGo]

lemma bestSim_catsA : bestSim catsA [(1 : ℝ)] = 1 := by
  rw [bestSim, simsOf_catsA, bestIdx_catsA]
  simp

lemma pageLabel_catsA : pageLabel catsA similarity_threshold [(1 : ℝ)] = "A" := by
  rw [pageLabel, if_pos]
  · rw [bestIdx_catsA]
    simp [catsA, catA]
  · rw [bestSim_catsA, similarity_threshold]
    norm_num

lemma catsA_not_empty : catsA.isEmpty = false := by
  simp [catsA]

lemma catsA_dim_ok : (catsA.any fun c => c.embedding.length ≠ [(1 : ℝ)].length) = false := by
  simp [catsA, catA]

/-- Evaluation of the classify loop on a concrete two-page run whose
second page has an empty embedding: the appended similarity for the empty
page is the stale `best_similarity` of page 0, namely `1`, not `0.0`. -/
lemma run_eval :
    classifyPages catsA similarity_threshold [[(1 : ℝ)], []] =
      Except.ok [⟨0, "A", 1⟩, ⟨1, "Unclassified", 1⟩] := by
  rw [classifyPages]
  simp only [classifyGo, catsA_not_empty, catsA_dim_ok, Bool.false_eq_true, if_false,
    bestSim_catsA, pageLabel_catsA]

/-- Evaluation on a run whose first page has an empty embedding: the
loop raises `NameError` because `best_similarity` is unbound. -/
lemma run_eval_first_empty (rest : List (List ℝ)) :
    classifyPages catsA similarity_threshold ([] :: rest) = Except.error nameErr := by
  rw [classifyPages]
  simp [classifyGo]

/-- Evaluation on a one-page run below the threshold: the label carries
the parenthesised best category but the recorded similarity is still the
maximum similarity `1`, not clamped. -/
lemma pageLabel_catsA_below : pageLabel catsA 2 [(1 : ℝ)] = "Unclassified (A)" := by
  rw [pageLabel, if_neg]
  · rw [bestIdx_catsA]
    simp [catsA, catA]
  · rw [bestSim_catsA]
    norm_num

lemma run_eval_below :
    classifyPages catsA 2 [[(1 : ℝ)]] =
      Except.ok [⟨0, "Unclassified (A)", 1⟩] := by
  rw [classifyPages]
  simp only [classifyGo, catsA_not_empty, catsA_dim_ok, Bool.false_eq_true, if_false,
    bestSim_catsA, pageLabel_catsA_below]

lemma getD_mem_of_lt (l : List ℝ) (k : ℕ) (h : k < l.length) : l.getD k 0 ∈ l := by
  rw [List.getD_eq_getElem l 0 h]
  exact List.getElem_mem h

lemma argmaxGo_spec (xs : List ℝ) : ∀ (best : ℝ) (bi i : ℕ),
    (argmaxGo best bi i xs = bi ∧ ∀ x ∈ xs, x ≤ best) ∨
    (∃ j, j < xs.length ∧ argmaxGo best bi i xs = i + j ∧ best < xs.getD j 0 ∧
      (∀ k, k < xs.length → xs.getD k 0 ≤ xs.getD j 0) ∧
      (∀ k, k < j → xs.getD k 0 < xs.getD j 0)) := by
  induction xs with
  | nil =>
    intro best bi i
    left
    simp [argmaxGo]
  | cons x xs ih =>
    intro best bi i
    by_cases h : best < x
    · right
      rcases ih x i (i + 1) with ⟨heq, hall⟩ | ⟨j, hj, heq, hgt, hmax, hfirst⟩
      · refine ⟨0, by simp, ?_, by simpa using h, ?_, ?_⟩
        · simp [argmaxGo, if_pos h, heq]
        · intro k hk
          match k with
          | 0 => simp
          | k + 1 =>
            simp only [List.length_cons, Nat.add_lt_add_iff_right] at hk
            simp only [List.getD_cons_succ, List.getD_cons_zero]
            exact hall _ (getD_mem_of_lt xs k hk)
        · intro k hk
          omega
      · refine ⟨j + 1, by simpa using hj, ?_, ?_, ?_, ?_⟩
        · simp only [argmaxGo, if_pos h, heq]
          omega
        · simpa [List.getD_cons_succ] using lt_trans h hgt
        · intro k hk
          match k with
          | 0 => simpa [List.getD_cons_succ] using le_of_lt hgt
          | k + 1 =>
            simp only [List.length_cons, Nat.add_lt_add_iff_right] at hk
            simpa [List.getD_cons_succ] using hmax k hk
        · intro k hk
          match k with
          | 0 => simpa [List.getD_cons_succ] using hgt
          | k + 1 =>
            simp only [Nat.add_lt_add_iff_right] at hk
            simpa [List.getD_cons_succ] using hfirst k hk
    · rcases ih best bi (i + 1) with ⟨heq, hall⟩ | ⟨j, hj, heq, hgt, hmax, hfirst⟩
      · left
        refine ⟨by simp [argmaxGo, if_neg h, heq], ?_⟩
        intro y hy
        rcases List.mem_cons.mp hy with hy | hy
        · exact hy ▸ not_lt.mp h
        · exact hall y hy
      · right
        refine ⟨j + 1, by simpa using hj, ?_, ?_, ?_, ?_⟩
        · simp only [argmaxGo, if_neg h, heq]
          omega
        · simpa [List.getD_cons_succ] using hgt
        · intro k hk
          match k with
          | 0 =>
            simp only [List.getD_cons_succ, List.getD_cons_zero]
            exact le_trans (not_lt.mp h) (le_of_lt hgt)
          | k + 1 =>
            simp only [List.length_cons, Nat.add_lt_add_iff_right] at hk
            simpa [List.getD_cons_succ] using hmax k hk
        · intro k hk
          match k with
          | 0 =>
            simp only [List.getD_cons_succ, List.getD_cons_zero]
            exact lt_of_le_of_lt (not_lt.mp h) hgt
          | k + 1 =>
            simp only [Nat.add_lt_add_iff_right] at hk
            simpa [List.getD_cons_succ] using hfirst k hk

/-- `np.argmax` returns an in-range index of a maximal entry, and every
earlier entry is strictly smaller (first occurrence of the maximum). -/
lemma argmaxIdx_spec (l : List ℝ) (h : l ≠ []) :
    argmaxIdx l < l.length ∧
    (∀ k, k < l.length → l.getD k 0 ≤ l.getD (argmaxIdx l) 0) ∧
    (∀ k, k < argmaxIdx l → l.getD k 0 < l.getD (argmaxIdx l) 0) := by
  match l with
  | x :: xs =>
    rcases argmaxGo_spec xs x 0 1 with ⟨heq, hall⟩ | ⟨j, hj, heq, hgt, hmax, hfirst⟩
    · have hidx : argmaxIdx (x :: xs) = 0 := by simp [argmaxIdx, heq]
      rw [hidx]
      refine ⟨by simp, ?_, by omega⟩
      intro k hk
      match k with
      | 0 => simp
      | k + 1 =>
        simp only [List.length_cons, Nat.add_lt_add_iff_right] at hk
        simp only [List.getD_cons_succ, List.getD_cons_zero]
        exact hall _ (getD_mem_of_lt xs k hk)
    · have hidx : argmaxIdx (x :: xs) = j + 1 := by
        simp only [argmaxIdx, heq]
        omega
      rw [hidx]
      refine ⟨by simpa using hj, ?_, ?_⟩
      · intro k hk
        match k with
        | 0 => simpa [List.getD_cons_succ] using le_of_lt hgt
        | k + 1 =>
          simp only [List.length_cons, Nat.add_lt_add_iff_right] at hk
          simpa [List.getD_cons_succ] using hmax k hk
      · intro k hk
        match k with
        | 0 => simpa [List.getD_cons_succ] using hgt
        | k + 1 =>
          simp only [Nat.add_lt_add_iff_right] at hk
          simpa [List.getD_cons_succ] using hfirst k hk

/-! ### Claim theorems -/

/-- Claim C1: the spec says a page with an empty embedding is classified
as `("Unclassified", 0.0)`.  The loop does skip the comparison and uses
the label `"Unclassified"`, but it appends `best_similarity`, not the
locally assigned `similarity = 0.0`: with the empty page first the run
fails with a `NameError`, and with the empty page second the recorded
similarity is the stale `1`, not `0.0`.  The code contradicts its own
dead `similarity = 0.0` assignment, so this is a code bug. -/
theorem c1_empty_embedding_similarity_code_bug :
    classifyPages catsA similarity_threshold [[]] = Except.error nameErr ∧
    classifyPages catsA similarity_threshold [[(1 : ℝ)], []] =
      Except.ok [⟨0, "A", 1⟩, ⟨1, "Unclassified", 1⟩] ∧ (1 : ℝ) ≠ 0 :=
  ⟨run_eval_first_empty [], run_eval, one_ne_zero⟩

/-- Claim C2: for a non-empty page embedding and non-empty category list,
the similarity reported by the classifier is the entry of the similarity row at
`best_match_idx`; that index is in range, its entry is maximal among all
categories compared, and every earlier category has a strictly smaller
similarity (ties resolve to the earliest index). -/
theorem c2_argmax_max_and_tiebreak (cats : List Category) (thr : ℝ)
    (pe : List ℝ) (hpe : pe ≠ []) (hcats : cats ≠ []) :
    bestIdx cats pe < (simsOf cats pe).length ∧
    (classifyPage cats thr pe).2 = (simsOf cats pe).getD (bestIdx cats pe) 0 ∧
    (∀ k, k < (simsOf cats pe).length →
      (simsOf cats pe).getD k 0 ≤ (simsOf cats pe).getD (bestIdx cats pe) 0) ∧
    (∀ k, k < bestIdx cats pe →
      (simsOf cats pe).getD k 0 < (simsOf cats pe).getD (bestIdx cats pe) 0) := by
  have hs : simsOf cats pe ≠ [] := by
    simpa [simsOf] using hcats
  obtain ⟨h1, h2, h3⟩ := argmaxIdx_spec _ hs
  exact ⟨h1, rfl, h2, h3⟩

/-- Witness for C2 at a concrete input. -/
theorem c2_argmax_max_and_tiebreak_witness :
    bestIdx catsA [(1 : ℝ)] < (simsOf catsA [(1 : ℝ)]).length ∧
    (classifyPage catsA similarity_threshold [(1 : ℝ)]).2 =
      (simsOf catsA [(1 : ℝ)]).getD (bestIdx catsA [(1 : ℝ)]) 0 ∧
    (∀ k, k < (simsOf catsA [(1 : ℝ)]).length →
      (simsOf catsA [(1 : ℝ)]).getD k 0 ≤
        (simsOf catsA [(1 : ℝ)]).getD (bestIdx catsA [(1 : ℝ)]) 0) ∧
    (∀ k, k < bestIdx catsA [(1 : ℝ)] →
      (simsOf catsA [(1 : ℝ)]).getD k 0 <
        (simsOf catsA [(1 : ℝ)]).getD (bestIdx catsA [(1 : ℝ)]) 0) :=
  c2_argmax_max_and_tiebreak catsA similarity_threshold [(1 : ℝ)]
    (by simp) (by simp [catsA])

/-- Claim C3: for a non-empty page embedding, when the maximum similarity
is at or above the threshold the returned label is exactly the name of
the best category, unprefixed and undecorated. -/
theorem c3_at_or_above_threshold_label (cats : List Category) (thr : ℝ)
    (pe : List ℝ) (hpe : pe ≠ []) (hcats : cats ≠ [])
    (hthr : bestSim cats pe ≥ thr) :
    (classifyPage cats thr pe).1 =
      (cats.getD (bestIdx cats pe) junkCategory).classification := by
  simp [classifyPage, pageLabel, if_pos hthr]

/-- Witness for C3 at a concrete input. -/
theorem c3_at_or_above_threshold_label_witness :
    (classifyPage catsA similarity_threshold [(1 : ℝ)]).1 =
      (catsA.getD (bestIdx catsA [(1 : ℝ)]) junkCategory).classification :=
  c3_at_or_above_threshold_label catsA similarity_threshold [(1 : ℝ)]
    (by simp) (by simp [catsA])
    (by rw [bestSim_catsA, similarity_threshold]; norm_num)

/-- Claim C4: for a non-empty page embedding, when the maximum similarity
is strictly below the threshold the returned label is
`"Unclassified (" ++ best category name ++ ")"`, parenthesis format
preserved exactly. -/
theorem c4_below_threshold_label (cats : List Category) (thr : ℝ)
    (pe : List ℝ) (hpe : pe ≠ []) (hcats : cats ≠ [])
    (hthr : bestSim cats pe < thr) :
    (classifyPage cats thr pe).1 =
      "Unclassified (" ++
        (cats.getD (bestIdx cats pe) junkCategory).classification ++ ")" := by
  simp [classifyPage, pageLabel, if_neg (not_le.mpr hthr)]

/-- Witness for C4 at a concrete input. -/
theorem c4_below_threshold_label_witness :
    (classifyPage catsA 2 [(1 : ℝ)]).1 =
      "Unclassified (" ++
        (catsA.getD (bestIdx catsA [(1 : ℝ)]) junkCategory).classification ++ ")" :=
  c4_below_threshold_label catsA 2 [(1 : ℝ)]
    (by simp) (by simp [catsA])
    (by rw [bestSim_catsA]; norm_num)

/-- Claim C5: for a non-empty page embedding the recorded similarity is
indeed the maximum similarity, not clamped even when below the threshold
(`thr = 2` run); but the final clause of the claim — that only the
empty-embedding case yields `0.0` — fails on the code: the empty page in
the second run records the stale `1`, not `0.0`. -/
theorem c5_similarity_recorded_code_bug :
    classifyPages catsA 2 [[(1 : ℝ)]] =
      Except.ok [⟨0, "Unclassified (A)", 1⟩] ∧
    bestSim catsA [(1 : ℝ)] = 1 ∧
    classifyPages catsA similarity_threshold [[(1 : ℝ)], []] =
      Except.ok [⟨0, "A", 1⟩, ⟨1, "Unclassified", 1⟩] ∧ (1 : ℝ) ≠ 0 :=
  ⟨run_eval_below, bestSim_catsA, run_eval, one_ne_zero⟩

/-- Claim C6: for vectors of equal length the similarity is
`dot(a,b) / (|a| * |b|)`, defined to be `0` when either magnitude is
zero; in the dividing branch the denominator is provably non-zero, so no
division by zero occurs. -/
theorem c6_cosine_formula_and_zero_guard (a b : List ℝ)
    (hlen : a.length = b.length) :
    ((magnitude a = 0 ∨ magnitude b = 0) → cosineSim a b = 0) ∧
    (magnitude a ≠ 0 → magnitude b ≠ 0 →
      magnitude a * magnitude b ≠ 0 ∧
      cosineSim a b * (magnitude a * magnitude b) = dotp a b) := by
  constructor
  · intro h
    rw [cosineSim, if_pos h]
  · intro ha hb
    have hab : magnitude a * magnitude b ≠ 0 := mul_ne_zero ha hb
    refine ⟨hab, ?_⟩
    rw [cosineSim, if_neg (by tauto)]
    exact div_mul_cancel₀ _ hab

/-- Witness for C6 at a concrete input. -/
theorem c6_cosine_formula_and_zero_guard_witness :
    ((magnitude [(1 : ℝ)] = 0 ∨ magnitude [(1 : ℝ)] = 0) →
      cosineSim [(1 : ℝ)] [(1 : ℝ)] = 0) ∧
    (magnitude [(1 : ℝ)] ≠ 0 → magnitude [(1 : ℝ)] ≠ 0 →
      magnitude [(1 : ℝ)] * magnitude [(1 : ℝ)] ≠ 0 ∧
      cosineSim [(1 : ℝ)] [(1 : ℝ)] * (magnitude [(1 : ℝ)] * magnitude [(1 : ℝ)]) =
        dotp [(1 : ℝ)] [(1 : ℝ)]) :=
  c6_cosine_formula_and_zero_guard [(1 : ℝ)] [(1 : ℝ)] rfl

/-- Claim C8: when the page embedding is non-empty and its length differs
from the length of some category embedding, the classify step fails fast with
a dimension-mismatch error (whatever the loop state), rather than
producing a similarity score. -/
theorem c8_dimension_mismatch_fails_fast (cats : List Category) (thr : ℝ)
    (idx : ℕ) (best? : Option ℝ) (pe : List ℝ) (rest : List (List ℝ))
    (hpe : pe ≠ []) (c : Category) (hc : c ∈ cats)
    (hlen : c.embedding.length ≠ pe.length) :
    classifyGo cats thr idx best? (pe :: rest) = Except.error dimErr := by
  cases pe with
  | nil => exact absurd rfl hpe
  | cons x xs =>
    have hne : cats.isEmpty = false := by
      cases cats with
      | nil => cases hc
      | cons d ds => rfl
    have hany : (cats.any fun c => c.embedding.length ≠ (x :: xs).length) = true :=
      List.any_eq_true.mpr ⟨c, hc, by simpa using hlen⟩
    simp only [classifyGo, hne, Bool.false_eq_true, if_false, hany, if_true]

/-- Witness for C8 at a concrete input: a two-dimensional page against a
one-dimensional category. -/
theorem c8_dimension_mismatch_fails_fast_witness :
    classifyGo catsA similarity_threshold 0 none [[(1 : ℝ), 2]] =
      Except.error dimErr :=
  c8_dimension_mismatch_fails_fast catsA similarity_threshold 0 none
    [(1 : ℝ), 2] [] (by simp) catA (by simp [catsA]) (by simp [catA])

/-- Loop-shape invariant: a successful run of the classify loop produces
one record per page, with `page_number` running from the starting
enumeration index. -/
lemma classifyGo_shape (cats : List Category) (thr : ℝ) :
    ∀ (pages : List (List ℝ)) (idx : ℕ) (b : Option ℝ) (out : List Classification),
      classifyGo cats thr idx b pages = Except.ok out →
      out.length = pages.length ∧
      ∀ i, i < out.length → (out.getD i ⟨0, "", 0⟩).page_number = idx + i := by
  intro pages
  induction pages with
  | nil =>
    intro idx b out h
    simp only [classifyGo, Except.ok.injEq] at h
    subst h
    simp
  | cons pe rest ih =>
    intro idx b out h
    have step :
        ∀ (r : Classification) (b' : Option ℝ),
          r.page_number = idx →
          (match classifyGo cats thr (idx + 1) b' rest with
            | Except.ok out' => Except.ok (r :: out')
            | Except.error e => Except.error e) = Except.ok out →
          out.length = (pe :: rest).length ∧
          ∀ i, i < out.length → (out.getD i ⟨0, "", 0⟩).page_number = idx + i := by
      intro r b' hr hm
      cases hrec : classifyGo cats thr (idx + 1) b' rest with
      | error e =>
        rw [hrec] at hm
        exact Except.noConfusion hm
      | ok out' =>
        rw [hrec] at hm
        simp only [Except.ok.injEq] at hm
        subst hm
        obtain ⟨hlen, hnum⟩ := ih (idx + 1) b' out' hrec
        refine ⟨by simp [hlen], ?_⟩
        intro i hi
        match i with
        | 0 => simpa using hr
        | i + 1 =>
          simp only [List.length_cons, Nat.add_lt_add_iff_right] at hi
          have := hnum i hi
          simp only [List.getD_cons_succ]
          omega
    cases pe with
    | nil =>
      cases b with
      | none =>
        simp only [classifyGo] at h
        exact Except.noConfusion h
      | some bs =>
        simp only [classifyGo] at h
        exact step ⟨idx, "Unclassified", bs⟩ (some bs) rfl h
    | cons x xs =>
      simp only [classifyGo] at h
      by_cases h1 : cats.isEmpty = true
      · rw [if_pos h1] at h
        exact Except.noConfusion h
      · rw [if_neg h1] at h
        by_cases h2 : (cats.any fun c => c.embedding.length ≠ (x :: xs).length) = true
        · rw [if_pos h2] at h
          exact Except.noConfusion h
        · rw [if_neg h2] at h
          exact step ⟨idx, pageLabel cats thr (x :: xs), bestSim cats (x :: xs)⟩
            (some (bestSim cats (x :: xs))) rfl h

/-- Claim C9: a successful classify run yields exactly one
`Classification` per page, in page order, and the `page_number` of the
`i`-th result is `i` (0-based enumeration index). -/
theorem c9_one_result_per_page_in_order (cats : List Category) (thr : ℝ)
    (pages : List (List ℝ)) (out : List Classification)
    (h : classifyPages cats thr pages = Except.ok out) :
    out.length = pages.length ∧
    ∀ i, i < out.length → (out.getD i ⟨0, "", 0⟩).page_number = i := by
  obtain ⟨h1, h2⟩ := classifyGo_shape cats thr pages 0 none out h
  refine ⟨h1, ?_⟩
  intro i hi
  simpa using h2 i hi

/-- Witness for C9 on a concrete successful run. -/
theorem c9_one_result_per_page_in_order_witness :
    ([(⟨0, "A", 1⟩ : Classification), ⟨1, "Unclassified", 1⟩]).length =
      ([[(1 : ℝ)], []] : List (List ℝ)).length ∧
    ∀ i, i < ([(⟨0, "A", 1⟩ : Classification), ⟨1, "Unclassified", 1⟩]).length →
      (([(⟨0, "A", 1⟩ : Classification), ⟨1, "Unclassified", 1⟩]).getD i
        ⟨0, "", 0⟩).page_number = i :=
  c9_one_result_per_page_in_order catsA similarity_threshold
    [[(1 : ℝ)], []] [⟨0, "A", 1⟩, ⟨1, "Unclassified", 1⟩] run_eval

/-- Stale-state invariant: when `best_similarity` is bound to `s` and all
remaining pages up to the next empty page have empty embeddings, the
record appended for that empty page carries the stale similarity `s`. -/
lemma classifyGo_stale (cats : List Category) (thr : ℝ) :
    ∀ (mids : List (List ℝ)) (idx : ℕ) (s : ℝ) (rest : List (List ℝ))
      (out : List Classification),
      (∀ m ∈ mids, m = []) →
      classifyGo cats thr idx (some s) (mids ++ [] :: rest) = Except.ok out →
      out.getD mids.length ⟨0, "", 0⟩ = ⟨idx + mids.length, "Unclassified", s⟩ := by
  intro mids
  induction mids with
  | nil =>
    intro idx s rest out _ h
    simp only [List.nil_append, classifyGo] at h
    cases hrec : classifyGo cats thr (idx + 1) (some s) rest with
    | error e =>
      rw [hrec] at h
      exact Except.noConfusion h
    | ok out' =>
      rw [hrec] at h
      simp only [Except.ok.injEq] at h
      subst h
      simp
  | cons m mids ih =>
    intro idx s rest out hm h
    have hm0 : m = [] := hm m (List.mem_cons_self m mids)
    subst hm0
    simp only [List.cons_append, classifyGo, List.append_eq] at h
    cases hrec : classifyGo cats thr (idx + 1) (some s) (mids ++ [] :: rest) with
    | error e =>
      rw [hrec] at h
      exact Except.noConfusion h
    | ok out' =>
      rw [hrec] at h
      simp only [Except.ok.injEq] at h
      subst h
      have := ih (idx + 1) s rest out' (fun x hx => hm x (List.mem_cons_of_mem _ hx)) hrec
      simp only [List.length_cons, List.getD_cons_succ, this]
      simp only [Classification.mk.injEq]
      exact ⟨by omega, trivial, trivial⟩

/-- Claim C10: the similarity the loop appends for an empty page
embedding is the `best_similarity` left over from the most recent page
with a non-empty embedding (the local `similarity = 0.0` is never read),
and when the embedding of the very first page is empty the loop fails with an
undefined-variable `NameError`. -/
theorem c10_stale_best_similarity :
    (∀ (cats : List Category) (thr : ℝ) (rest : List (List ℝ)),
      classifyPages cats thr ([] :: rest) = Except.error nameErr) ∧
    (∀ (cats : List Category) (thr : ℝ) (p : List ℝ)
      (mids rest : List (List ℝ)) (out : List Classification),
      p ≠ [] → (∀ m ∈ mids, m = []) →
      classifyPages cats thr (p :: (mids ++ [] :: rest)) = Except.ok out →
      out.getD (mids.length + 1) ⟨0, "", 0⟩ =
        ⟨mids.length + 1, "Unclassified", bestSim cats p⟩) := by
  constructor
  · intro cats thr rest
    simp [classifyPages, classifyGo]
  · intro cats thr p mids rest out hp hm h
    cases p with
    | nil => exact absurd rfl hp
    | cons x xs =>
      rw [classifyPages] at h
      simp only [classifyGo] at h
      by_cases h1 : cats.isEmpty = true
      · rw [if_pos h1] at h
        exact Except.noConfusion h
      · rw [if_neg h1] at h
        by_cases h2 : (cats.any fun c => c.embedding.length ≠ (x :: xs).length) = true
        · rw [if_pos h2] at h
          exact Except.noConfusion h
        · rw [if_neg h2] at h
          cases hrec : classifyGo cats thr 1 (some (bestSim cats (x :: xs)))
              (mids ++ [] :: rest) with
          | error e =>
            rw [hrec] at h
            exact Except.noConfusion h
          | ok out' =>
            rw [hrec] at h
            simp only [Except.ok.injEq] at h
            subst h
            have := classifyGo_stale cats thr mids 1 (bestSim cats (x :: xs))
              rest out' hm hrec
            simp only [List.getD_cons_succ, this]
            simp only [Classification.mk.injEq]
            exact ⟨by omega, trivial, trivial⟩

/-- Witness for C10: both conjuncts applied at concrete inputs. -/
theorem c10_stale_best_similarity_witness :
    classifyPages catsA similarity_threshold ([] :: []) = Except.error nameErr ∧
    ([(⟨0, "A", 1⟩ : Classification), ⟨1, "Unclassified", 1⟩]).getD
        (List.length ([] : List (List ℝ)) + 1) ⟨0, "", 0⟩ =
      ⟨List.length ([] : List (List ℝ)) + 1, "Unclassified", bestSim catsA [(1 : ℝ)]⟩ :=
  ⟨c10_stale_best_similarity.1 catsA similarity_threshold [],
   c10_stale_best_similarity.2 catsA similarity_threshold [(1 : ℝ)] [] []
     [⟨0, "A", 1⟩, ⟨1, "Unclassified", 1⟩] (by simp) (by simp) run_eval⟩

/-- A `countP` cast to `ℚ` is the sum of 0/1 indicator contributions. -/
lemma countP_cast_eq_sum (p : EvalRecord → Bool) (l : List EvalRecord) :
    ((l.countP p : ℕ) : ℚ) = (l.map (fun e => if p e then (1 : ℚ) else 0)).sum := by
  induction l with
  | nil => simp
  | cons x xs ih =>
    rw [List.map_cons, List.sum_cons, ← ih, List.countP_cons]
    by_cases h : p x = true
    · rw [if_pos h, if_pos h]
      push_cast
      ring
    · rw [if_neg h, if_neg h]
      push_cast
      ring

/-- Per-record contribution of an expected record to the match count:
`0` when no actual record is joined, the non-ignored-field comparison
otherwise. -/
lemma recordMatch_indicator (matchKeys ignoreKeys : List String)
    (actual : List EvalRecord) (e : EvalRecord) :
    (if recordMatch matchKeys ignoreKeys actual e then (1 : ℚ) else 0) =
      (findActual matchKeys actual e).elim 0
        (fun a => if fieldsMatch ignoreKeys e a then (1 : ℚ) else 0) := by
  rw [recordMatch]
  cases findActual matchKeys actual e with
  | none => simp
  | some a => simp [Option.elim]

/-- Claim C7: for a non-empty expected sequence, the overall accuracy
times the expected count is the sum over expected records of a 0/1
contribution — `1` exactly when a joined actual record exists and agrees
on all non-ignored fields — so accuracy is the matching count divided by
the expected count, and an expected record with no joined actual record
contributes `0` (the evaluator is a total function, so no error is
raised). -/
theorem c7_overall_accuracy (matchKeys ignoreKeys : List String)
    (expected actual : List EvalRecord) (hne : expected ≠ []) :
    evaluate matchKeys ignoreKeys expected actual * (expected.length : ℚ) =
      (expected.map (fun e =>
        (findActual matchKeys actual e).elim 0
          (fun a => if fieldsMatch ignoreKeys e a then (1 : ℚ) else 0))).sum ∧
    (∀ e, findActual matchKeys actual e = none →
      (findActual matchKeys actual e).elim (0 : ℚ)
        (fun a => if fieldsMatch ignoreKeys e a then (1 : ℚ) else 0) = 0) := by
  constructor
  · have hlen : (expected.length : ℚ) ≠ 0 := by
      have : expected.length ≠ 0 := by
        simpa [List.length_eq_zero] using hne
      exact_mod_cast this
    rw [evaluate, div_mul_cancel₀ _ hlen, countP_cast_eq_sum]
    congr 1
    apply List.map_congr_left
    intro e _
    exact recordMatch_indicator matchKeys ignoreKeys actual e
  · intro e he
    rw [he]
    simp

/-- Witness for C7: the spec §8 scenario, one expected record joined by
`page_number` with an identical actual record, ignoring `page_number` and
`similarity`. -/
theorem c7_overall_accuracy_witness :
    evaluate ["page_number"] ["page_number", "similarity"]
        [[("page_number", "0"), ("classification", "X")]]
        [[("page_number", "0"), ("classification", "X")]] *
      (([[("page_number", "0"), ("classification", "X")]] : List EvalRecord).length : ℚ) =
      (([[("page_number", "0"), ("classification", "X")]] : List EvalRecord).map (fun e =>
        (findActual ["page_number"]
            [[("page_number", "0"), ("classification", "X")]] e).elim 0
          (fun a =>
            if fieldsMatch ["page_number", "similarity"] e a then (1 : ℚ) else 0))).sum ∧
    (∀ e, findActual ["page_number"]
        [[("page_number", "0"), ("classification", "X")]] e = none →
      (findActual ["page_number"]
          [[("page_number", "0"), ("classification", "X")]] e).elim (0 : ℚ)
        (fun a =>
          if fieldsMatch ["page_number", "similarity"] e a then (1 : ℚ) else 0) = 0) :=
  c7_overall_accuracy ["page_number"] ["page_number", "similarity"]
    [[("page_number", "0"), ("classification", "X")]]
    [[("page_number", "0"), ("classification", "X")]]
    (by simp)

end DocCls
